import Mathlib

/-!
Verification of the entity-graph lifecycle layer of `taipy/core/taipy.py`.

The Python module is embedded shallowly: each public function of the module
becomes a Lean definition operating on explicit state (entity stores, the
version bookkeeping, the file system seen by the export routine).  Manager
internals that live outside the embedded module (the per-kind `_exists`,
`_get`, `_delete_by_version`, the version alias resolution, the identifier
prefixes) are modelled from the specification and say so in their doc
comments.
-/

namespace Taipy

/-- The seven entity kinds of the data model (spec section 3). -/
inductive Kind
  | job
  | cycle
  | scenario
  | sequence
  | task
  | dataNode
  | submission
deriving DecidableEq, Repr

/-- `listStarts s p` holds when the character list `s` begins with `p`:
the embedding of Python's `str.startswith`. -/
def listStarts : List Char → List Char → Bool
  | _, [] => true
  | [], _ :: _ => false
  | c :: s, p :: ps => p == c && listStarts s ps

/-- Embedding of `s.startswith(pat)` on strings. -/
def startswith (s pat : String) : Bool :=
  listStarts s.data pat.data

/-- Modelled from the spec: every identifier carries a kind-specific
prefix token (the `_ID_PREFIX` of the kind's entity class, which lives
outside the embedded module); identifiers are recognised by
`startswith` against this token.  The tokens are the upstream kind
names. -/
def idTag : Kind → String
  | .job => "JOB"
  | .cycle => "CYCLE"
  | .scenario => "SCENARIO"
  | .sequence => "SEQUENCE"
  | .task => "TASK"
  | .dataNode => "DATANODE"
  | .submission => "SUBMISSION"

/-- The kind check an identifier string satisfies for a given kind. -/
def matchesKind (id : String) (k : Kind) : Bool :=
  startswith id (idTag k)

/-- Modelled from the spec: `_check_instance._is_job` for strings. -/
def is_job (id : String) : Bool := matchesKind id .job

/-- Modelled from the spec: `_check_instance._is_cycle` for strings. -/
def is_cycle (id : String) : Bool := matchesKind id .cycle

/-- Modelled from the spec: `_check_instance._is_scenario` for strings. -/
def is_scenario (id : String) : Bool := matchesKind id .scenario

/-- Modelled from the spec: `_check_instance._is_sequence` for strings. -/
def is_sequence (id : String) : Bool := matchesKind id .sequence

/-- Modelled from the spec: `_check_instance._is_task` for strings. -/
def is_task (id : String) : Bool := matchesKind id .task

/-- Modelled from the spec: `_check_instance._is_data_node` for strings. -/
def is_data_node (id : String) : Bool := matchesKind id .dataNode

/-- Modelled from the spec: `_check_instance._is_submission` for strings. -/
def is_submission (id : String) : Bool := matchesKind id .submission

/-- Kind resolution: the first-match chain shared by `exists`, `get` and
`delete` in the source, in the order the source tests the kinds. -/
def kind_of (id : String) : Option Kind :=
  if is_job id then some .job
  else if is_cycle id then some .cycle
  else if is_scenario id then some .scenario
  else if is_sequence id then some .sequence
  else if is_task id then some .task
  else if is_data_node id then some .dataNode
  else if is_submission id then some .submission
  else none

/-- The fixed priority order in which the source tests the kinds. -/
def resolutionOrder : List Kind :=
  [.job, .cycle, .scenario, .sequence, .task, .dataNode, .submission]

/-- An entity record: identifier, kind, owning application version and the
stored parent-identifier set (spec section 3). -/
structure Entity where
  id : String
  kind : Kind
  version : String
  parent_ids : List String
deriving DecidableEq, Repr

/-- One entity store per kind (spec section 2), each a keyed list of
records. -/
structure Store where
  jobs : List Entity
  cycles : List Entity
  scenarios : List Entity
  sequences : List Entity
  tasks : List Entity
  dataNodes : List Entity
  submissions : List Entity
deriving DecidableEq, Repr

/-- The store partition of a kind. -/
def Store.kindStore (s : Store) : Kind → List Entity
  | .job => s.jobs
  | .cycle => s.cycles
  | .scenario => s.scenarios
  | .sequence => s.sequences
  | .task => s.tasks
  | .dataNode => s.dataNodes
  | .submission => s.submissions

/-- The errors the embedded module raises. -/
inductive TaipyError
  | modelNotFound (id : String)
  | nonExistingVersion
  | invalidExportPath
  | exportFolderAlreadyExists (path id : String)
deriving DecidableEq, Repr

/-- Modelled from the spec: a manager's `_get` is a keyed lookup in its
store. -/
def mgrGet (l : List Entity) (id : String) : Option Entity :=
  l.find? (fun e => e.id == id)

/-- Modelled from the spec: a manager's `_exists` is a keyed membership
test in its store. -/
def mgrExists (l : List Entity) (id : String) : Bool :=
  (mgrGet l id).isSome

/-- `exists` from the source: the kind check chain, delegating to the
resolved manager, raising `ModelNotFound` when no check succeeds.
(`exists` is a reserved word in Lean, hence the suffix.) -/
def existsEntity (s : Store) (id : String) : Except TaipyError Bool :=
  if is_job id then .ok (mgrExists s.jobs id)
  else if is_cycle id then .ok (mgrExists s.cycles id)
  else if is_scenario id then .ok (mgrExists s.scenarios id)
  else if is_sequence id then .ok (mgrExists s.sequences id)
  else if is_task id then .ok (mgrExists s.tasks id)
  else if is_data_node id then .ok (mgrExists s.dataNodes id)
  else if is_submission id then .ok (mgrExists s.submissions id)
  else .error (.modelNotFound id)

/-- `get` from the source: same chain, delegating to the resolved
manager's `_get`. -/
def get (s : Store) (id : String) : Except TaipyError (Option Entity) :=
  if is_job id then .ok (mgrGet s.jobs id)
  else if is_cycle id then .ok (mgrGet s.cycles id)
  else if is_scenario id then .ok (mgrGet s.scenarios id)
  else if is_sequence id then .ok (mgrGet s.sequences id)
  else if is_task id then .ok (mgrGet s.tasks id)
  else if is_data_node id then .ok (mgrGet s.dataNodes id)
  else if is_submission id then .ok (mgrGet s.submissions id)
  else .error (.modelNotFound id)

/-- The deletion a resolved kind triggers, as an effect descriptor:
`jobDelete` is the job manager's single-record `_delete` (after `_get`),
`hardDelete` is the kind's cascading `_hard_delete`, `leafDelete` is the
data manager's direct `_delete`. -/
inductive DeleteEffect
  | jobDelete (id : String)
  | hardDelete (k : Kind) (id : String)
  | leafDelete (id : String)
deriving DecidableEq, Repr

/-- `delete` from the source: the kind check chain, dispatching to the
cascading delete except for jobs (single-record delete) and data nodes
(direct leaf delete). -/
def delete (id : String) : Except TaipyError DeleteEffect :=
  if is_job id then .ok (.jobDelete id)
  else if is_cycle id then .ok (.hardDelete .cycle id)
  else if is_scenario id then .ok (.hardDelete .scenario id)
  else if is_sequence id then .ok (.hardDelete .sequence id)
  else if is_task id then .ok (.hardDelete .task id)
  else if is_data_node id then .ok (.leafDelete id)
  else if is_submission id then .ok (.hardDelete .submission id)
  else .error (.modelNotFound id)

/-- An argument to one of the kind-polymorphic Python functions: a typed
entity instance, a bare identifier string, or a value of any other
type. -/
inductive Input
  | entity (e : Entity)
  | str (s : String)
  | other
deriving DecidableEq, Repr

/-- The three manager deletability checks `is_deletable` delegates to;
their behaviour lives outside the embedded module, so they are abstract
parameters. -/
structure DeletableManagers where
  job_deletable : Input → Bool
  scenario_deletable : Input → Bool
  submission_deletable : Input → Bool

/-- `is_deletable` from the source: Job, Scenario and Submission inputs
(instances or identifier strings) delegate to their manager; everything
else falls through to `True`. -/
def is_deletable (m : DeletableManagers) (x : Input) : Bool :=
  match x with
  | .entity e =>
    if e.kind = .job then m.job_deletable (.entity e)
    else if e.kind = .scenario then m.scenario_deletable (.entity e)
    else if e.kind = .submission then m.submission_deletable (.entity e)
    else true
  | .str s =>
    if is_job s then m.job_deletable (.str s)
    else if is_scenario s then m.scenario_deletable (.str s)
    else if is_submission s then m.submission_deletable (.str s)
    else true
  | .other => true

/-- The submission a `submit` call hands to the resolved manager, as an
effect descriptor. -/
inductive SubmitEffect
  | scenarioSubmit (id : String) (force wait : Bool)
  | sequenceSubmit (id : String) (force wait : Bool)
  | taskSubmit (id : String) (force wait : Bool)
deriving DecidableEq, Repr

/-- `submit` from the source: `isinstance` checks for Scenario, Sequence
and Task, falling through to `return None` for anything else. -/
def submit (x : Input) (force wait : Bool) : Option SubmitEffect :=
  match x with
  | .entity e =>
    if e.kind = .scenario then some (.scenarioSubmit e.id force wait)
    else if e.kind = .sequence then some (.sequenceSubmit e.id force wait)
    else if e.kind = .task then some (.taskSubmit e.id force wait)
    else none
  | _ => none

/-- The declared return annotation of `submit` in the source is the bare
`Submission` type: not an `Optional`. -/
def submit_declared_return_nullable : Bool := false

/-- The write a `set` call hands to the resolved manager, as an effect
descriptor. -/
inductive SetEffect
  | write (k : Kind) (id : String)
deriving DecidableEq, Repr

/-- `set` from the source: `isinstance` checks for Cycle, Scenario,
Sequence, Task, DataNode and Submission in that order, each delegating to
that manager's `_set`; anything else falls through and returns `None`. -/
def set (x : Input) : Option SetEffect :=
  match x with
  | .entity e =>
    if e.kind = .cycle then some (.write .cycle e.id)
    else if e.kind = .scenario then some (.write .scenario e.id)
    else if e.kind = .sequence then some (.write .sequence e.id)
    else if e.kind = .task then some (.write .task e.id)
    else if e.kind = .dataNode then some (.write .dataNode e.id)
    else if e.kind = .submission then some (.write .submission e.id)
    else none
  | _ => none

/-- The declared parameter annotation of `set` in the source:
`Union[DataNode, Task, Sequence, Scenario, Cycle]`. -/
def set_declared_param_kinds : List Kind :=
  [.dataNode, .task, .sequence, .scenario, .cycle]

/-- The version bookkeeping the version manager tracks: the known version
entries, the latest version and the production markers. -/
structure VersionState where
  versions : List String
  latest : String
  production : List String
deriving DecidableEq, Repr

/-- The state `clean_all_entities` reads and writes: the entity stores
and the version bookkeeping. -/
structure GlobalState where
  store : Store
  vstate : VersionState
deriving DecidableEq, Repr

/-- Modelled from the spec: the version manager's
`_replace_version_number` resolves the latest-version alias to a concrete
version identifier and fails with `NonExistingVersion` when the result is
not a known version. -/
def replaceVersionNumber (vs : VersionState) (v : String) : Except TaipyError String :=
  if v = "latest" then
    if vs.latest ∈ vs.versions then .ok vs.latest else .error .nonExistingVersion
  else if v ∈ vs.versions then .ok v
  else .error .nonExistingVersion

/-- Modelled from the spec: a manager's `_delete_by_version` removes
every record of its store whose version is the given one. -/
def deleteByVersion (l : List Entity) (v : String) : List Entity :=
  l.filter (fun e => e.version != v)

/-- `clean_all_entities` from the source: resolve the version (abort with
`False` on `NonExistingVersion`), refuse production versions with
`False`, then delete by version in the job, submission, scenario,
sequence, task and data-node stores, drop the version entry and clear a
production marker if one points at it (the source catches
`VersionIsNotProductionVersion`).  The source never touches the cycle
store. -/
def clean_all_entities (g : GlobalState) (version_number : String) : Bool × GlobalState :=
  match replaceVersionNumber g.vstate version_number with
  | .error _ => (false, g)
  | .ok v =>
    if v ∈ g.vstate.production then (false, g)
    else
      (true,
        { store :=
            { jobs := deleteByVersion g.store.jobs v
              submissions := deleteByVersion g.store.submissions v
              scenarios := deleteByVersion g.store.scenarios v
              sequences := deleteByVersion g.store.sequences v
              tasks := deleteByVersion g.store.tasks v
              dataNodes := deleteByVersion g.store.dataNodes v
              cycles := g.store.cycles }
          vstate :=
            { versions := g.vstate.versions.erase v
              latest := g.vstate.latest
              production := g.vstate.production.erase v } })

/-- The identifier sets of a scenario's owned entities, as the scenario
manager's `_get_children_entity_ids` returns them (that manager lives
outside the embedded module, so the sets are taken as input). -/
structure EntityIds where
  data_node_ids : List String
  task_ids : List String
  sequence_ids : List String
  cycle_ids : List String
  scenario_ids : List String
  job_ids : List String
  submission_ids : List String
deriving DecidableEq, Repr

/-- One side effect of `export_scenario`, in the order the source
performs them. -/
inductive ExportStep
  | removeFolder (path : String)
  | exportRecord (k : Kind) (id : String)
  | exportDataNode (id : String) (includeData : Bool)
  | exportVersion (v : String)
deriving DecidableEq, Repr

/-- `export_scenario` from the source.  `storageFolder` is the
configured primary storage root, `existingPaths` the set of paths that
exist on disk, `children` the owned-entity identifier sets of the
scenario, `scenarioCycle` its optional cycle and `scenarioVersion` its
version.  Returns the ordered effects, or the error raised. -/
def export_scenario (storageFolder : String) (existingPaths : List String)
    (children : EntityIds) (scenarioCycle : Option String) (scenarioVersion : String)
    (scenario_id : String) (folder_path : String) (override includeData : Bool) :
    Except TaipyError (List ExportStep) :=
  let ids : EntityIds :=
    { children with
      scenario_ids := [scenario_id]
      cycle_ids := match scenarioCycle with
        | some c => [c]
        | none => children.cycle_ids }
  if folder_path = storageFolder then .error .invalidExportPath
  else
    let steps : List ExportStep :=
      ids.data_node_ids.map (fun i => .exportDataNode i includeData)
      ++ ids.task_ids.map (.exportRecord .task ·)
      ++ ids.sequence_ids.map (.exportRecord .sequence ·)
      ++ ids.cycle_ids.map (.exportRecord .cycle ·)
      ++ ids.scenario_ids.map (.exportRecord .scenario ·)
      ++ ids.job_ids.map (.exportRecord .job ·)
      ++ ids.submission_ids.map (.exportRecord .submission ·)
      ++ [.exportVersion scenarioVersion]
    if folder_path ∈ existingPaths then
      if override then .ok (.removeFolder folder_path :: steps)
      else .error (.exportFolderAlreadyExists folder_path scenario_id)
    else .ok steps

/-- Insert an entity into a set-valued entry: Python `set.add`, so a
member already present is not duplicated. -/
def insertND (xs : List Entity) (e : Entity) : List Entity :=
  if e ∈ xs then xs else xs ++ [e]

/-- The parent dictionary `get_parents` accumulates: one entity set per
manager name (the keys of the Python dictionary; a missing key and an
empty set are not distinguished). -/
structure ParentDict where
  jobs : List Entity
  cycles : List Entity
  scenarios : List Entity
  sequences : List Entity
  tasks : List Entity
  dataNodes : List Entity
  submissions : List Entity
deriving DecidableEq, Repr

/-- The empty parent dictionary. -/
def ParentDict.empty : ParentDict :=
  ⟨[], [], [], [], [], [], []⟩

/-- The entry of a parent dictionary under a manager name. -/
def ParentDict.kindList (d : ParentDict) : Kind → List Entity
  | .job => d.jobs
  | .cycle => d.cycles
  | .scenario => d.scenarios
  | .sequence => d.sequences
  | .task => d.tasks
  | .dataNode => d.dataNodes
  | .submission => d.submissions

/-- Add one parent entity under its manager name: the grouping loop body
of `get_parents`. -/
def ParentDict.add (d : ParentDict) (e : Entity) : ParentDict :=
  match e.kind with
  | .job => { d with jobs := insertND d.jobs e }
  | .cycle => { d with cycles := insertND d.cycles e }
  | .scenario => { d with scenarios := insertND d.scenarios e }
  | .sequence => { d with sequences := insertND d.sequences e }
  | .task => { d with tasks := insertND d.tasks e }
  | .dataNode => { d with dataNodes := insertND d.dataNodes e }
  | .submission => { d with submissions := insertND d.submissions e }

/-- `update_parent_dict(cur, d)` from the source: per key, update the
accumulated set with the freshly collected one. -/
def ParentDict.merge (d cur : ParentDict) : ParentDict :=
  { jobs := cur.jobs.foldl insertND d.jobs
    cycles := cur.cycles.foldl insertND d.cycles
    scenarios := cur.scenarios.foldl insertND d.scenarios
    sequences := cur.sequences.foldl insertND d.sequences
    tasks := cur.tasks.foldl insertND d.tasks
    dataNodes := cur.dataNodes.foldl insertND d.dataNodes
    submissions := cur.submissions.foldl insertND d.submissions }

/-- The grouping loop of `get_parents`: resolve each stored parent
identifier through `get` and group the entities by manager name.  A
parent identifier that does not resolve aborts the call (the Python code
raises there). -/
def collectParents (resolve : String → Option Entity) :
    List String → ParentDict → Option ParentDict
  | [], acc => some acc
  | p :: rest, acc =>
    match resolve p with
    | none => none
    | some pe => collectParents resolve rest (acc.add pe)

/-- Run a step function over a list of entities, threading the parent
dictionary: the recursion loops of `get_parents`. -/
def stepList (step : Entity → ParentDict → Option ParentDict) :
    List Entity → ParentDict → Option ParentDict
  | [], d => some d
  | e :: rest, d =>
    match step e d with
    | none => none
    | some d2 => stepList step rest d2

/-- The recursion of `get_parents`, with explicit fuel standing for the
Python call stack (each recursive call of the source consumes one unit):
Scenario and Cycle inputs return the accumulated dictionary unchanged;
Sequence inputs merge their immediate owners; Task inputs merge, then
recurse through every scenario accumulated so far; DataNode inputs
merge, then recurse through every task accumulated so far; Job and
Submission inputs resolve their parents but merge nothing, as in the
source. -/
def getParentsAux (resolve : String → Option Entity) :
    Nat → Entity → ParentDict → Option ParentDict
  | 0, _, _ => none
  | fuel + 1, e, d =>
    match e.kind with
    | .scenario => some d
    | .cycle => some d
    | .sequence =>
      match collectParents resolve e.parent_ids ParentDict.empty with
      | none => none
      | some cur => some (d.merge cur)
    | .task =>
      match collectParents resolve e.parent_ids ParentDict.empty with
      | none => none
      | some cur =>
        stepList (fun e2 acc => getParentsAux resolve fuel e2 acc)
          ((d.merge cur).kindList .scenario) (d.merge cur)
    | .dataNode =>
      match collectParents resolve e.parent_ids ParentDict.empty with
      | none => none
      | some cur =>
        stepList (fun e2 acc => getParentsAux resolve fuel e2 acc)
          ((d.merge cur).kindList .task) (d.merge cur)
    | .job =>
      match collectParents resolve e.parent_ids ParentDict.empty with
      | none => none
      | some _ => some d
    | .submission =>
      match collectParents resolve e.parent_ids ParentDict.empty with
      | none => none
      | some _ => some d

/-- `get_parents` from the source, on an entity: the recursion starts
from an empty dictionary.  Fuel 3 covers the deepest chain (data node,
then its tasks, then their scenarios); the fuel-independence theorem for
the recursion shows any larger fuel computes the same dictionary. -/
def get_parents (resolve : String → Option Entity) (e : Entity) : Option ParentDict :=
  getParentsAux resolve 3 e ParentDict.empty

/-- `get_parents` on a bare identifier: the source first resolves the
identifier through `get`. -/
def get_parents_of_id (resolve : String → Option Entity) (id : String) :
    Option ParentDict :=
  match resolve id with
  | none => none
  | some e => get_parents resolve e

/-- Every entry of the dictionary holds entities of its own kind.  The
recursion only ever stores an entity under its manager name, so this
invariant holds for every dictionary it builds. -/
def wellKeyed (d : ParentDict) : Prop :=
  (∀ e ∈ d.jobs, e.kind = .job) ∧
  (∀ e ∈ d.cycles, e.kind = .cycle) ∧
  (∀ e ∈ d.scenarios, e.kind = .scenario) ∧
  (∀ e ∈ d.sequences, e.kind = .sequence) ∧
  (∀ e ∈ d.tasks, e.kind = .task) ∧
  (∀ e ∈ d.dataNodes, e.kind = .dataNode) ∧
  (∀ e ∈ d.submissions, e.kind = .submission)

instance (d : ParentDict) : Decidable (wellKeyed d) := by
  unfold wellKeyed; infer_instance

/-- Every entry of the dictionary is duplicate-free: the set semantics of
the Python dictionary values. -/
def dictNodup (d : ParentDict) : Prop :=
  ∀ k, (d.kindList k).Nodup

/-- An empty store, for concrete instantiations. -/
def emptyStore : Store := ⟨[], [], [], [], [], [], []⟩

instance {ε α : Type} [DecidableEq ε] [DecidableEq α] : DecidableEq (Except ε α) :=
  fun x y =>
    match x, y with
    | .error a, .error b =>
      if h : a = b then .isTrue (h ▸ rfl)
      else .isFalse (fun hh => h (by cases hh; rfl))
    | .error _, .ok _ => .isFalse (fun hh => Except.noConfusion hh)
    | .ok _, .error _ => .isFalse (fun hh => Except.noConfusion hh)
    | .ok a, .ok b =>
      if h : a = b then .isTrue (h ▸ rfl)
      else .isFalse (fun hh => h (by cases hh; rfl))

/-- A state whose only version is the production version, holding one
scenario record of that version. -/
def c3State : GlobalState :=
  { store := { emptyStore with scenarios := [⟨"SCENARIO_s1", .scenario, "v1", []⟩] }
    vstate := { versions := ["v1"], latest := "v1", production := ["v1"] } }

/-- A cleanable state for version `v1`: one record of that version in
every kind's store, `v1` known and not marked production. -/
def c1State : GlobalState :=
  { store :=
      { jobs := [⟨"JOB_j1", .job, "v1", []⟩]
        cycles := [⟨"CYCLE_c1", .cycle, "v1", []⟩]
        scenarios := [⟨"SCENARIO_s1", .scenario, "v1", []⟩]
        sequences := [⟨"SEQUENCE_q1", .sequence, "v1", []⟩]
        tasks := [⟨"TASK_t1", .task, "v1", []⟩]
        dataNodes := [⟨"DATANODE_d1", .dataNode, "v1", []⟩]
        submissions := [⟨"SUBMISSION_u1", .submission, "v1", []⟩] }
    vstate := { versions := ["v1"], latest := "v1", production := [] } }

/-- A manager assembly whose three deletability checks all answer
`False`, to separate the delegated kinds from the default. -/
def c7Managers : DeletableManagers :=
  ⟨fun _ => false, fun _ => false, fun _ => false⟩

/-- A data node produced by one task. -/
def c5DataNode : Entity := ⟨"DATANODE_d", .dataNode, "v", ["TASK_t"]⟩

/-- A task owned by one scenario. -/
def c5Task : Entity := ⟨"TASK_t", .task, "v", ["SCENARIO_s"]⟩

/-- A terminal scenario. -/
def c5Scenario : Entity := ⟨"SCENARIO_s", .scenario, "v", []⟩

/-- The lookup over the three-entity graph. -/
def c5Resolve (id : String) : Option Entity :=
  if id = "TASK_t" then some c5Task
  else if id = "SCENARIO_s" then some c5Scenario
  else if id = "DATANODE_d" then some c5DataNode
  else none

/-- Two leading segments of the same list are comparable. -/
theorem listStarts_comparable :
    ∀ (s p q : List Char), listStarts s p = true → listStarts s q = true →
      listStarts p q = true ∨ listStarts q p = true := by
  intro s
  induction s with
  | nil =>
    intro p q hp hq
    cases p with
    | nil => right; cases q <;> simp_all [listStarts]
    | cons a l => cases hp
  | cons c s ih =>
    intro p q hp hq
    cases p with
    | nil => right; cases q <;> simp [listStarts]
    | cons a ps =>
      cases q with
      | nil => left; simp [listStarts]
      | cons b qs =>
        simp only [listStarts, Bool.and_eq_true, beq_iff_eq] at hp hq
        rcases hp with ⟨rfl, hp⟩
        rcases hq with ⟨rfl, hq⟩
        rcases ih ps qs hp hq with h | h
        · left; simp [listStarts, h]
        · right; simp [listStarts, h]

/-- No kind tag is a leading segment of another kind's tag. -/
theorem idTag_incomparable :
    ∀ k1 k2 : Kind, k1 ≠ k2 → listStarts (idTag k1).data (idTag k2).data = false := by
  intro k1 k2 h
  cases k1 <;> cases k2 <;> first | exact absurd rfl h | decide

/-- At most one kind check succeeds on any identifier. -/
theorem matchesKind_unique (id : String) (k1 k2 : Kind)
    (h1 : matchesKind id k1 = true) (h2 : matchesKind id k2 = true) : k1 = k2 := by
  by_contra hne
  rcases listStarts_comparable id.data _ _ h1 h2 with h | h
  · rw [idTag_incomparable k1 k2 hne] at h; cases h
  · rw [idTag_incomparable k2 k1 (Ne.symm hne)] at h; cases h

/-- `kind_of` is the first match over the source's priority order. -/
theorem kind_of_eq_find (id : String) :
    kind_of id = resolutionOrder.find? (fun k => matchesKind id k) := by
  unfold kind_of resolutionOrder is_job is_cycle is_scenario is_sequence is_task
    is_data_node is_submission
  cases h1 : matchesKind id .job <;>
    cases h2 : matchesKind id .cycle <;>
      cases h3 : matchesKind id .scenario <;>
        cases h4 : matchesKind id .sequence <;>
          cases h5 : matchesKind id .task <;>
            cases h6 : matchesKind id .dataNode <;>
              cases h7 : matchesKind id .submission <;>
                simp [List.find?, h1, h2, h3, h4, h5, h6, h7]

/-- A resolved kind satisfies its own kind check. -/
theorem kind_of_matches (id : String) (k : Kind) (h : kind_of id = some k) :
    matchesKind id k = true := by
  rw [kind_of_eq_find] at h
  exact List.find?_some h

/-- When resolution fails, every kind check is false. -/
theorem kind_of_none (id : String) (h : kind_of id = none) :
    ∀ k : Kind, matchesKind id k = false := by
  intro k
  rw [kind_of_eq_find] at h
  cases hk : matchesKind id k
  · rfl
  · have : k ∈ resolutionOrder := by cases k <;> simp [resolutionOrder]
    have := List.find?_isSome.mpr ⟨k, this, hk⟩
    rw [h] at this
    cases this

theorem mem_insertND {xs : List Entity} {x e : Entity} :
    x ∈ insertND xs e ↔ x ∈ xs ∨ x = e := by
  unfold insertND
  split
  · next h =>
    constructor
    · exact .inl
    · rintro (hx | rfl)
      · exact hx
      · exact h
  · simp [List.mem_append]

theorem insertND_nodup {xs : List Entity} {e : Entity} (h : xs.Nodup) :
    (insertND xs e).Nodup := by
  unfold insertND
  split
  · exact h
  · next hne => simpa [List.nodup_append, h] using hne

theorem mem_foldl_insertND {ys : List Entity} :
    ∀ {xs : List Entity} {x : Entity},
      x ∈ ys.foldl insertND xs ↔ x ∈ xs ∨ x ∈ ys := by
  induction ys with
  | nil => simp
  | cons y ys ih =>
    intro xs x
    simp only [List.foldl_cons, ih, mem_insertND, List.mem_cons]
    tauto

theorem foldl_insertND_nodup {ys : List Entity} :
    ∀ {xs : List Entity}, xs.Nodup → (ys.foldl insertND xs).Nodup := by
  induction ys with
  | nil => intro xs h; exact h
  | cons y ys ih => intro xs h; exact ih (insertND_nodup h)

theorem add_kindList (d : ParentDict) (e : Entity) (k : Kind) :
    (d.add e).kindList k =
      if e.kind = k then insertND (d.kindList k) e else d.kindList k := by
  cases he : e.kind <;> cases k <;>
    simp [ParentDict.add, ParentDict.kindList, he]

theorem merge_kindList (d cur : ParentDict) (k : Kind) :
    (d.merge cur).kindList k = (cur.kindList k).foldl insertND (d.kindList k) := by
  cases k <;> rfl

theorem mem_merge {d cur : ParentDict} {k : Kind} {x : Entity} :
    x ∈ (d.merge cur).kindList k ↔ x ∈ d.kindList k ∨ x ∈ cur.kindList k := by
  rw [merge_kindList]; exact mem_foldl_insertND

/-- The `wellKeyed` invariant, read through `kindList`. -/
theorem wellKeyed_iff {d : ParentDict} :
    wellKeyed d ↔ ∀ k, ∀ e ∈ d.kindList k, e.kind = k := by
  constructor
  · rintro ⟨h1, h2, h3, h4, h5, h6, h7⟩ k
    cases k <;> assumption
  · intro h
    exact ⟨h .job, h .cycle, h .scenario, h .sequence, h .task, h .dataNode, h .submission⟩

theorem wellKeyed_empty : wellKeyed ParentDict.empty := by
  decide

theorem wellKeyed_add {d : ParentDict} {e : Entity} (h : wellKeyed d) :
    wellKeyed (d.add e) := by
  rw [wellKeyed_iff] at h ⊢
  intro k x hx
  rw [add_kindList] at hx
  split at hx
  · next hk =>
    rcases mem_insertND.mp hx with hx | rfl
    · exact h k x hx
    · exact hk
  · exact h k x hx

theorem wellKeyed_merge {d cur : ParentDict} (hd : wellKeyed d) (hc : wellKeyed cur) :
    wellKeyed (d.merge cur) := by
  rw [wellKeyed_iff] at hd hc ⊢
  intro k x hx
  rcases mem_merge.mp hx with hx | hx
  · exact hd k x hx
  · exact hc k x hx

theorem dictNodup_empty : dictNodup ParentDict.empty := by
  intro k; cases k <;> simp [ParentDict.empty, ParentDict.kindList]

theorem dictNodup_add {d : ParentDict} {e : Entity} (h : dictNodup d) :
    dictNodup (d.add e) := by
  intro k
  rw [add_kindList]
  split
  · exact insertND_nodup (h k)
  · exact h k

theorem dictNodup_merge {d cur : ParentDict} (hd : dictNodup d) :
    dictNodup (d.merge cur) := by
  intro k
  rw [merge_kindList]
  exact foldl_insertND_nodup (hd k)

theorem collect_wellKeyed {resolve : String → Option Entity} :
    ∀ {ids : List String} {acc cur : ParentDict}, wellKeyed acc →
      collectParents resolve ids acc = some cur → wellKeyed cur := by
  intro ids
  induction ids with
  | nil =>
    intro acc cur h hc
    cases hc
    exact h
  | cons p rest ih =>
    intro acc cur h hc
    unfold collectParents at hc
    cases hr : resolve p with
    | none => rw [hr] at hc; cases hc
    | some pe =>
      rw [hr] at hc
      exact ih (wellKeyed_add h) hc

theorem collect_nodup {resolve : String → Option Entity} :
    ∀ {ids : List String} {acc cur : ParentDict}, dictNodup acc →
      collectParents resolve ids acc = some cur → dictNodup cur := by
  intro ids
  induction ids with
  | nil =>
    intro acc cur h hc
    cases hc
    exact h
  | cons p rest ih =>
    intro acc cur h hc
    unfold collectParents at hc
    cases hr : resolve p with
    | none => rw [hr] at hc; cases hc
    | some pe =>
      rw [hr] at hc
      exact ih (dictNodup_add h) hc

theorem collect_total {resolve : String → Option Entity} :
    ∀ {ids : List String} (acc : ParentDict),
      (∀ p ∈ ids, (resolve p).isSome) →
      ∃ cur, collectParents resolve ids acc = some cur := by
  intro ids
  induction ids with
  | nil => intro acc _; exact ⟨acc, rfl⟩
  | cons p rest ih =>
    intro acc h
    have hp : (resolve p).isSome := h p (by simp)
    cases hr : resolve p with
    | none => rw [hr] at hp; cases hp
    | some pe =>
      rcases ih (acc.add pe) (fun q hq => h q (by simp [hq])) with ⟨cur, hcur⟩
      exact ⟨cur, by unfold collectParents; rw [hr]; exact hcur⟩

theorem collect_mono {resolve : String → Option Entity} :
    ∀ {ids : List String} {acc cur : ParentDict},
      collectParents resolve ids acc = some cur →
      ∀ {k x}, x ∈ acc.kindList k → x ∈ cur.kindList k := by
  intro ids
  induction ids with
  | nil =>
    intro acc cur hc k x hx
    cases hc
    exact hx
  | cons p rest ih =>
    intro acc cur hc k x hx
    unfold collectParents at hc
    cases hr : resolve p with
    | none => rw [hr] at hc; cases hc
    | some pe =>
      rw [hr] at hc
      refine ih hc ?_
      rw [add_kindList]
      split
      · exact mem_insertND.mpr (.inl hx)
      · exact hx

theorem collect_mem {resolve : String → Option Entity} :
    ∀ {ids : List String} {acc cur : ParentDict} {p : String} {pe : Entity},
      collectParents resolve ids acc = some cur →
      p ∈ ids → resolve p = some pe → pe ∈ cur.kindList pe.kind := by
  intro ids
  induction ids with
  | nil => intro _ _ _ _ _ h; cases h
  | cons q rest ih =>
    intro acc cur p pe hc hp hr
    unfold collectParents at hc
    cases hq : resolve q with
    | none => rw [hq] at hc; cases hc
    | some qe =>
      rw [hq] at hc
      rcases List.mem_cons.mp hp with rfl | hp
      · have : qe = pe := by rw [hq] at hr; exact Option.some.inj hr
        subst this
        refine collect_mono hc ?_
        rw [add_kindList, if_pos rfl]
        exact mem_insertND.mpr (.inr rfl)
      · exact ih hc hp hr

theorem collect_source {resolve : String → Option Entity} :
    ∀ {ids : List String} {acc cur : ParentDict},
      collectParents resolve ids acc = some cur →
      ∀ {k x}, x ∈ cur.kindList k →
        x ∈ acc.kindList k ∨ ∃ p ∈ ids, resolve p = some x := by
  intro ids
  induction ids with
  | nil =>
    intro acc cur hc k x hx
    cases hc
    exact .inl hx
  | cons p rest ih =>
    intro acc cur hc k x hx
    unfold collectParents at hc
    cases hr : resolve p with
    | none => rw [hr] at hc; cases hc
    | some pe =>
      rw [hr] at hc
      rcases ih hc hx with hx | ⟨q, hq, hqr⟩
      · rw [add_kindList] at hx
        split at hx
        · next hk =>
          rcases mem_insertND.mp hx with hx | rfl
          · exact .inl hx
          · exact .inr ⟨p, by simp, hr⟩
        · exact .inl hx
      · exact .inr ⟨q, by simp [hq], hqr⟩

theorem stepList_id {step : Entity → ParentDict → Option ParentDict} :
    ∀ {l : List Entity} {d : ParentDict},
      (∀ e ∈ l, ∀ acc, step e acc = some acc) → stepList step l d = some d := by
  intro l
  induction l with
  | nil => intro d _; rfl
  | cons e rest ih =>
    intro d h
    unfold stepList
    rw [h e (by simp) d]
    exact ih (fun e2 he2 acc => h e2 (by simp [he2]) acc)

theorem stepList_congr_inv (P : ParentDict → Prop)
    {step1 step2 : Entity → ParentDict → Option ParentDict} :
    ∀ {l : List Entity} {d : ParentDict}, P d →
      (∀ e ∈ l, ∀ acc, P acc → step1 e acc = step2 e acc) →
      (∀ e ∈ l, ∀ acc acc', P acc → step2 e acc = some acc' → P acc') →
      stepList step1 l d = stepList step2 l d := by
  intro l
  induction l with
  | nil => intro d _ _ _; rfl
  | cons e rest ih =>
    intro d hd hagree hpres
    unfold stepList
    rw [hagree e (by simp) d hd]
    cases h2 : step2 e d with
    | none => rfl
    | some d2 =>
      exact ih (hpres e (by simp) d d2 hd h2)
        (fun e2 he2 acc hacc => hagree e2 (by simp [he2]) acc hacc)
        (fun e2 he2 acc acc' hacc => hpres e2 (by simp [he2]) acc acc' hacc)

theorem stepList_inv (P : ParentDict → Prop)
    {step : Entity → ParentDict → Option ParentDict} :
    ∀ {l : List Entity} {d dfin : ParentDict},
      stepList step l d = some dfin → P d →
      (∀ e ∈ l, ∀ acc acc', P acc → step e acc = some acc' → P acc') →
      P dfin := by
  intro l
  induction l with
  | nil =>
    intro d dfin h hd _
    cases h
    exact hd
  | cons e rest ih =>
    intro d dfin h hd hpres
    unfold stepList at h
    cases hs : step e d with
    | none => rw [hs] at h; cases h
    | some d2 =>
      rw [hs] at h
      exact ih h (hpres e (by simp) d d2 hd hs)
        (fun e2 he2 acc acc' hacc => hpres e2 (by simp [he2]) acc acc' hacc)

theorem gpa_scenario {resolve : String → Option Entity} {fuel : Nat}
    {e : Entity} {d : ParentDict} (h : e.kind = .scenario) :
    getParentsAux resolve (fuel + 1) e d = some d := by
  simp only [getParentsAux]
  rw [h]

theorem gpa_cycle {resolve : String → Option Entity} {fuel : Nat}
    {e : Entity} {d : ParentDict} (h : e.kind = .cycle) :
    getParentsAux resolve (fuel + 1) e d = some d := by
  simp only [getParentsAux]
  rw [h]

theorem gpa_sequence {resolve : String → Option Entity} {fuel : Nat}
    {e : Entity} {d : ParentDict} (h : e.kind = .sequence) :
    getParentsAux resolve (fuel + 1) e d =
      (collectParents resolve e.parent_ids ParentDict.empty).map
        (fun cur => d.merge cur) := by
  simp only [getParentsAux]
  rw [h]
  cases collectParents resolve e.parent_ids ParentDict.empty <;> rfl

theorem gpa_job {resolve : String → Option Entity} {fuel : Nat}
    {e : Entity} {d : ParentDict} (h : e.kind = .job) :
    getParentsAux resolve (fuel + 1) e d =
      (collectParents resolve e.parent_ids ParentDict.empty).map (fun _ => d) := by
  simp only [getParentsAux]
  rw [h]
  cases collectParents resolve e.parent_ids ParentDict.empty <;> rfl

theorem gpa_submission {resolve : String → Option Entity} {fuel : Nat}
    {e : Entity} {d : ParentDict} (h : e.kind = .submission) :
    getParentsAux resolve (fuel + 1) e d =
      (collectParents resolve e.parent_ids ParentDict.empty).map (fun _ => d) := by
  simp only [getParentsAux]
  rw [h]
  cases collectParents resolve e.parent_ids ParentDict.empty <;> rfl

theorem gpa_task {resolve : String → Option Entity} {fuel : Nat}
    {e : Entity} {d : ParentDict} (h : e.kind = .task) :
    getParentsAux resolve (fuel + 1) e d =
      match collectParents resolve e.parent_ids ParentDict.empty with
      | none => none
      | some cur =>
        stepList (fun e2 acc => getParentsAux resolve fuel e2 acc)
          ((d.merge cur).kindList .scenario) (d.merge cur) := by
  simp only [getParentsAux]
  rw [h]

theorem gpa_dataNode {resolve : String → Option Entity} {fuel : Nat}
    {e : Entity} {d : ParentDict} (h : e.kind = .dataNode) :
    getParentsAux resolve (fuel + 1) e d =
      match collectParents resolve e.parent_ids ParentDict.empty with
      | none => none
      | some cur =>
        stepList (fun e2 acc => getParentsAux resolve fuel e2 acc)
          ((d.merge cur).kindList .task) (d.merge cur) := by
  simp only [getParentsAux]
  rw [h]

/-- A task call with at least two units of fuel: collect the immediate
owners, merge them, and the recursion through the accumulated scenarios
is the identity, so the result is the merge alone. -/
theorem gpa_task_eq {resolve : String → Option Entity} {e : Entity}
    {d : ParentDict} (fuel : Nat) (h : e.kind = .task) (hWK : wellKeyed d) :
    getParentsAux resolve (fuel + 2) e d =
      (collectParents resolve e.parent_ids ParentDict.empty).map
        (fun cur => d.merge cur) := by
  rw [gpa_task h]
  cases hc : collectParents resolve e.parent_ids ParentDict.empty with
  | none => rfl
  | some cur =>
    have hmW : wellKeyed (d.merge cur) :=
      wellKeyed_merge hWK (collect_wellKeyed wellKeyed_empty hc)
    simp only [Option.map_some]
    apply stepList_id
    intro e2 he2 acc
    exact gpa_scenario ((wellKeyed_iff.mp hmW) .scenario e2 he2)

/-- A data-node call with at least three units of fuel, written without
fuel on the right-hand side: collect and merge the immediate owners,
then run the task-level merge over the accumulated tasks. -/
theorem gpa_dataNode_eq {resolve : String → Option Entity} {e : Entity}
    {d : ParentDict} (fuel : Nat) (h : e.kind = .dataNode) (hWK : wellKeyed d) :
    getParentsAux resolve (fuel + 3) e d =
      match collectParents resolve e.parent_ids ParentDict.empty with
      | none => none
      | some cur =>
        stepList
          (fun e2 acc =>
            (collectParents resolve e2.parent_ids ParentDict.empty).map
              (fun cur2 => acc.merge cur2))
          ((d.merge cur).kindList .task) (d.merge cur) := by
  rw [gpa_dataNode h]
  cases hc : collectParents resolve e.parent_ids ParentDict.empty with
  | none => rfl
  | some cur =>
    have hmW : wellKeyed (d.merge cur) :=
      wellKeyed_merge hWK (collect_wellKeyed wellKeyed_empty hc)
    apply stepList_congr_inv wellKeyed hmW
    · intro e2 he2 acc hacc
      exact gpa_task_eq fuel ((wellKeyed_iff.mp hmW) .task e2 he2) hacc
    · intro e2 he2 acc acc' hacc hstep
      cases hc2 : collectParents resolve e2.parent_ids ParentDict.empty with
      | none => rw [hc2] at hstep; cases hstep
      | some cur2 =>
        rw [hc2] at hstep
        have h2 : some (acc.merge cur2) = some acc' := hstep
        cases h2
        exact wellKeyed_merge hacc (collect_wellKeyed wellKeyed_empty hc2)

/-- Claim C2: kind resolution tries the prefixes in the fixed priority
order Job, Cycle, Scenario, Sequence, Task, DataNode, Submission and
selects exactly one kind or none; when no prefix matches, `exists`, `get`
and `delete` all raise `ModelNotFound` instead of returning a partial
result, and when one matches they delegate to that kind's manager. -/
theorem C2_kind_resolution :
    (∀ (id : String) (k1 k2 : Kind),
        matchesKind id k1 = true → matchesKind id k2 = true → k1 = k2)
  ∧ (∀ id : String, kind_of id = resolutionOrder.find? (fun k => matchesKind id k))
  ∧ (∀ (s : Store) (id : String), kind_of id = none →
        existsEntity s id = .error (.modelNotFound id)
      ∧ get s id = .error (.modelNotFound id)
      ∧ delete id = .error (.modelNotFound id))
  ∧ (∀ (s : Store) (id : String) (k : Kind), kind_of id = some k →
        existsEntity s id = .ok (mgrExists (s.kindStore k) id)
      ∧ get s id = .ok (mgrGet (s.kindStore k) id)) := by
  refine ⟨matchesKind_unique, kind_of_eq_find, ?_, ?_⟩
  · intro s id h
    have hm := kind_of_none id h
    refine ⟨?_, ?_, ?_⟩ <;>
      simp [existsEntity, get, delete, is_job, is_cycle, is_scenario, is_sequence,
        is_task, is_data_node, is_submission, hm]
  · intro s id k h
    unfold kind_of at h
    unfold existsEntity get
    split_ifs at h ⊢ <;> cases h <;> simp [Store.kindStore]

/-- Closed instance of C2: a task identifier resolves uniquely, and an
identifier with no kind prefix makes the three routers raise
`ModelNotFound`. -/
theorem C2_kind_resolution_witness :
    Kind.task = Kind.task
  ∧ existsEntity emptyStore "unknown" = .error (.modelNotFound "unknown") :=
  ⟨C2_kind_resolution.1 "TASK_1" .task .task (by decide) (by decide),
    (C2_kind_resolution.2.2.1 emptyStore "unknown" (by decide)).1⟩

/-- Claim C3: when the version does not resolve, or resolves to a
production version, `clean_all_entities` returns `False` and leaves the
whole state (all stores and the version bookkeeping) unchanged. -/
theorem C3_clean_refuses (g : GlobalState) (v : String) :
    (∀ err, replaceVersionNumber g.vstate v = .error err →
        clean_all_entities g v = (false, g))
  ∧ (∀ rv, replaceVersionNumber g.vstate v = .ok rv → rv ∈ g.vstate.production →
        clean_all_entities g v = (false, g)) := by
  constructor
  · intro err h
    simp [clean_all_entities, h]
  · intro rv h hp
    simp [clean_all_entities, h, hp]

/-- Closed instance of C3: cleaning the production version and cleaning
an unknown version both fail without touching the state. -/
theorem C3_clean_refuses_witness :
    clean_all_entities c3State "v1" = (false, c3State)
  ∧ clean_all_entities c3State "nope" = (false, c3State) :=
  ⟨(C3_clean_refuses c3State "v1").2 "v1" (by decide) (by decide),
    (C3_clean_refuses c3State "nope").1 .nonExistingVersion (by decide)⟩

/-- Claim C4: for every identifier whose kind resolves, `delete`
dispatches the cascading hard delete for Cycle, Scenario, Sequence, Task
and Submission, a direct leaf delete for DataNode, and a single-record
job delete for Job. -/
theorem C4_delete_dispatch (id : String) (k : Kind) (h : kind_of id = some k) :
    delete id = .ok (match k with
      | .job => .jobDelete id
      | .dataNode => .leafDelete id
      | _ => .hardDelete k id) := by
  unfold kind_of at h
  unfold delete
  split_ifs at h ⊢ <;> cases h <;> rfl

/-- Closed instance of C4: a data-node identifier gets the direct leaf
delete, a scenario identifier the cascading delete. -/
theorem C4_delete_dispatch_witness :
    delete "DATANODE_x" = .ok (.leafDelete "DATANODE_x")
  ∧ delete "SCENARIO_x" = .ok (.hardDelete .scenario "SCENARIO_x") :=
  ⟨C4_delete_dispatch "DATANODE_x" .dataNode (by decide),
    C4_delete_dispatch "SCENARIO_x" .scenario (by decide)⟩

/-- Claim C1: on an existing, non-production version,
`clean_all_entities` returns `True`, empties the job, submission,
scenario, sequence, task and data-node partitions of that version, and
removes the version's bookkeeping entry — but it leaves the cycle
partition untouched, although the claim (and the function's own
docstring) includes cycles among the cleaned kinds: the cycle record of
the cleaned version survives and still reports as existing. -/
theorem C1_clean_misses_cycles :
    (clean_all_entities c1State "v1").1 = true
  ∧ (clean_all_entities c1State "v1").2.store.jobs = []
  ∧ (clean_all_entities c1State "v1").2.store.submissions = []
  ∧ (clean_all_entities c1State "v1").2.store.scenarios = []
  ∧ (clean_all_entities c1State "v1").2.store.sequences = []
  ∧ (clean_all_entities c1State "v1").2.store.tasks = []
  ∧ (clean_all_entities c1State "v1").2.store.dataNodes = []
  ∧ (clean_all_entities c1State "v1").2.vstate.versions = []
  ∧ (clean_all_entities c1State "v1").2.store.cycles = [⟨"CYCLE_c1", .cycle, "v1", []⟩]
  ∧ existsEntity (clean_all_entities c1State "v1").2.store "CYCLE_c1" = .ok true := by
  decide

/-- Claim C6: `export_scenario` raises `InvalidExportPath` whenever the
target equals the storage root; with an existing target and
`override=False` it raises `ExportFolderAlreadyExists` and exports
nothing; with an existing target and `override=True` the removal of the
target is the first effect, before any record export. -/
theorem C6_export_scenario (storageFolder : String) (existingPaths : List String)
    (children : EntityIds) (scenarioCycle : Option String) (scenarioVersion : String)
    (scenario_id folder_path : String) (includeData : Bool) :
    (∀ override, folder_path = storageFolder →
        export_scenario storageFolder existingPaths children scenarioCycle
          scenarioVersion scenario_id folder_path override includeData =
          .error .invalidExportPath)
  ∧ (folder_path ≠ storageFolder → folder_path ∈ existingPaths →
        export_scenario storageFolder existingPaths children scenarioCycle
          scenarioVersion scenario_id folder_path false includeData =
          .error (.exportFolderAlreadyExists folder_path scenario_id))
  ∧ (folder_path ≠ storageFolder → folder_path ∈ existingPaths →
        ∃ rest, export_scenario storageFolder existingPaths children scenarioCycle
          scenarioVersion scenario_id folder_path true includeData =
          .ok (.removeFolder folder_path :: rest)) := by
  refine ⟨?_, ?_, ?_⟩
  · intro override h
    simp [export_scenario, h]
  · intro h hmem
    simp [export_scenario, h, hmem]
  · intro h hmem
    exact ⟨_, by simp [export_scenario, h, hmem]; rfl⟩

/-- Closed instance of C6: the three branches at concrete arguments. -/
theorem C6_export_scenario_witness :
    export_scenario "/store" ["/out"] ⟨[], [], [], [], [], [], []⟩ none "v"
        "SCENARIO_s" "/store" false false = .error .invalidExportPath
  ∧ export_scenario "/store" ["/out"] ⟨[], [], [], [], [], [], []⟩ none "v"
        "SCENARIO_s" "/out" false false =
      .error (.exportFolderAlreadyExists "/out" "SCENARIO_s")
  ∧ ∃ rest, export_scenario "/store" ["/out"] ⟨[], [], [], [], [], [], []⟩ none "v"
        "SCENARIO_s" "/out" true false = .ok (.removeFolder "/out" :: rest) :=
  ⟨(C6_export_scenario "/store" ["/out"] ⟨[], [], [], [], [], [], []⟩ none "v"
      "SCENARIO_s" "/store" false).1 false rfl,
    (C6_export_scenario "/store" ["/out"] ⟨[], [], [], [], [], [], []⟩ none "v"
      "SCENARIO_s" "/out" false).2.1 (by decide) (by decide),
    (C6_export_scenario "/store" ["/out"] ⟨[], [], [], [], [], [], []⟩ none "v"
      "SCENARIO_s" "/out" false).2.2 (by decide) (by decide)⟩

/-- Claim C7: `is_deletable` returns `True` on every DataNode, Task,
Sequence or Cycle input (entity instance or identifier string, plus any
input of unhandled type), and delegates exactly the Job, Scenario and
Submission inputs to their manager's check. -/
theorem C7_is_deletable :
    (∀ (m : DeletableManagers) (e : Entity),
        e.kind = .dataNode ∨ e.kind = .task ∨ e.kind = .sequence ∨ e.kind = .cycle →
        is_deletable m (.entity e) = true)
  ∧ (∀ (m : DeletableManagers) (s : String) (k : Kind), kind_of s = some k →
        (k = .dataNode ∨ k = .task ∨ k = .sequence ∨ k = .cycle) →
        is_deletable m (.str s) = true)
  ∧ (∀ (m : DeletableManagers) (e : Entity), e.kind = .job →
        is_deletable m (.entity e) = m.job_deletable (.entity e))
  ∧ (∀ (m : DeletableManagers) (e : Entity), e.kind = .scenario →
        is_deletable m (.entity e) = m.scenario_deletable (.entity e))
  ∧ (∀ (m : DeletableManagers) (e : Entity), e.kind = .submission →
        is_deletable m (.entity e) = m.submission_deletable (.entity e))
  ∧ (∀ (m : DeletableManagers) (s : String), is_job s = true →
        is_deletable m (.str s) = m.job_deletable (.str s))
  ∧ (∀ (m : DeletableManagers) (s : String), is_scenario s = true →
        is_deletable m (.str s) = m.scenario_deletable (.str s))
  ∧ (∀ (m : DeletableManagers) (s : String), is_submission s = true →
        is_deletable m (.str s) = m.submission_deletable (.str s)) := by
  have hfalse : ∀ (s : String) (k1 k2 : Kind), k1 ≠ k2 →
      matchesKind s k1 = true → matchesKind s k2 = false := by
    intro s k1 k2 hne h1
    cases h2 : matchesKind s k2
    · rfl
    · exact absurd (matchesKind_unique s k1 k2 h1 h2) hne
  refine ⟨?_, ?_, ?_, ?_, ?_, ?_, ?_, ?_⟩
  · rintro m e (h | h | h | h) <;> simp [is_deletable, h]
  · intro m s k hk hmem
    have hm := kind_of_matches s k hk
    have h1 : is_job s = false := by
      apply hfalse s k .job _ hm
      rcases hmem with h | h | h | h <;> simp [h]
    have h2 : is_scenario s = false := by
      apply hfalse s k .scenario _ hm
      rcases hmem with h | h | h | h <;> simp [h]
    have h3 : is_submission s = false := by
      apply hfalse s k .submission _ hm
      rcases hmem with h | h | h | h <;> simp [h]
    simp [is_deletable, h1, h2, h3]
  · intro m e h
    simp [is_deletable, h]
  · intro m e h
    simp [is_deletable, h]
  · intro m e h
    simp [is_deletable, h]
  · intro m s h
    simp [is_deletable, h]
  · intro m s h
    have h1 : is_job s = false := hfalse s .scenario .job (by simp) h
    simp [is_deletable, h, h1]
  · intro m s h
    have h1 : is_job s = false := hfalse s .submission .job (by simp) h
    have h2 : is_scenario s = false := hfalse s .submission .scenario (by simp) h
    simp [is_deletable, h, h1, h2]

/-- Closed instance of C7: a data-node entity and a cycle identifier are
deletable regardless of the managers; a job identifier is delegated. -/
theorem C7_is_deletable_witness :
    is_deletable c7Managers (.entity ⟨"DATANODE_d", .dataNode, "v", []⟩) = true
  ∧ is_deletable c7Managers (.str "CYCLE_c") = true
  ∧ is_deletable c7Managers (.str "JOB_j") = c7Managers.job_deletable (.str "JOB_j") :=
  ⟨C7_is_deletable.1 c7Managers ⟨"DATANODE_d", .dataNode, "v", []⟩ (Or.inl rfl),
    C7_is_deletable.2.1 c7Managers "CYCLE_c" .cycle (by decide)
      (Or.inr (Or.inr (Or.inr rfl))),
    C7_is_deletable.2.2.2.2.2.1 c7Managers "JOB_j" (by decide)⟩

/-- Claim C9: `submit` performs no submission and returns `None` on any
argument that is not a Scenario, Sequence or Task instance, although its
declared return annotation promises a `Submission`. -/
theorem C9_submit_returns_none :
    submit_declared_return_nullable = false
  ∧ (∀ (x : Input) (force wait : Bool),
      (∀ e, x = .entity e → e.kind ≠ .scenario ∧ e.kind ≠ .sequence ∧ e.kind ≠ .task) →
      submit x force wait = none) := by
  refine ⟨rfl, ?_⟩
  intro x force wait h
  cases x with
  | entity e =>
    rcases h e rfl with ⟨h1, h2, h3⟩
    simp [submit, h1, h2, h3]
  | str s => rfl
  | other => rfl

/-- Closed instance of C9: a job entity and a bare string both submit
nothing. -/
theorem C9_submit_returns_none_witness :
    submit (.entity ⟨"JOB_j", .job, "v", []⟩) true false = none
  ∧ submit (.str "SCENARIO_s") false false = none :=
  ⟨C9_submit_returns_none.2 (.entity ⟨"JOB_j", .job, "v", []⟩) true false
      (by intro e he; cases he; exact ⟨by decide, by decide, by decide⟩),
    C9_submit_returns_none.2 (.str "SCENARIO_s") false false (by intro e he; cases he)⟩

/-- Claim C10: `set` accepts a Submission entity and hands it to the
submission manager's write path although the declared parameter
annotation omits Submission; on any argument of none of the six handled
kinds it returns `None` without writing. -/
theorem C10_set_dispatch :
    (Kind.submission ∉ set_declared_param_kinds)
  ∧ (∀ e : Entity, e.kind = .submission →
        set (.entity e) = some (.write .submission e.id))
  ∧ (∀ x : Input,
      (∀ e, x = .entity e →
        e.kind ∉ ([.cycle, .scenario, .sequence, .task, .dataNode, .submission] : List Kind)) →
      set x = none) := by
  refine ⟨by decide, ?_, ?_⟩
  · intro e h
    simp [set, h]
  · intro x h
    cases x with
    | entity e =>
      have hmem := h e rfl
      cases hk : e.kind <;> rw [hk] at hmem <;> simp [set, hk]
      all_goals exact hmem (by simp)
    | str s => rfl
    | other => rfl

/-- Closed instance of C10: a submission entity is written through the
submission manager; a job entity and a bare string are ignored. -/
theorem C10_set_dispatch_witness :
    set (.entity ⟨"SUBMISSION_u", .submission, "v", []⟩) =
      some (.write .submission "SUBMISSION_u")
  ∧ set (.entity ⟨"JOB_j", .job, "v", []⟩) = none :=
  ⟨C10_set_dispatch.2.1 ⟨"SUBMISSION_u", .submission, "v", []⟩ rfl,
    C10_set_dispatch.2.2 (.entity ⟨"JOB_j", .job, "v", []⟩)
      (by intro e he; cases he; decide)⟩

/-- Folding the task-level merge step over a list of entities whose
parents all resolve: the fold succeeds, extends the incoming dictionary,
absorbs every processed entity's collected parents, and preserves
duplicate-freeness. -/
theorem stepList_taskMerge (resolve : String → Option Entity) :
    ∀ (l : List Entity) (d : ParentDict),
      (∀ e2 ∈ l, ∃ cur2, collectParents resolve e2.parent_ids ParentDict.empty = some cur2) →
      ∃ dfin,
        stepList
          (fun e2 acc =>
            (collectParents resolve e2.parent_ids ParentDict.empty).map
              (fun cur2 => acc.merge cur2)) l d = some dfin
        ∧ (∀ k x, x ∈ d.kindList k → x ∈ dfin.kindList k)
        ∧ (∀ e2 ∈ l, ∀ cur2,
            collectParents resolve e2.parent_ids ParentDict.empty = some cur2 →
            ∀ k x, x ∈ cur2.kindList k → x ∈ dfin.kindList k)
        ∧ (dictNodup d → dictNodup dfin) := by
  intro l
  induction l with
  | nil =>
    intro d _
    refine ⟨d, rfl, fun k x hx => hx, ?_, fun h => h⟩
    intro e2 he2
    simp at he2
  | cons e2 rest ih =>
    intro d h
    rcases h e2 (by simp) with ⟨cur2, hc2⟩
    rcases ih (d.merge cur2) (fun e3 he3 => h e3 (by simp [he3])) with
      ⟨dfin, hfin, hmono, hcur, hnd⟩
    refine ⟨dfin, ?_, ?_, ?_, ?_⟩
    · unfold stepList
      rw [hc2]
      exact hfin
    · intro k x hx
      exact hmono k x (mem_merge.mpr (.inl hx))
    · intro e3 he3 cur3 hc3 k x hx
      rcases List.mem_cons.mp he3 with rfl | he3
      · have hcc : cur3 = cur2 := by
          rw [hc2] at hc3
          exact (Option.some.inj hc3).symm
        subst hcc
        exact hmono k x (mem_merge.mpr (.inr hx))
      · exact hcur e3 he3 cur3 hc3 k x hx
    · intro hd
      exact hnd (dictNodup_merge hd)

/-- Claim C8: `get_parents` terminates on every input: a Scenario or a
Cycle returns the accumulated dictionary unchanged without recursing,
and on any input the recursion needs no more than the three levels of
fuel (the entity, its tasks, their scenarios): every larger fuel
computes the same result. -/
theorem C8_get_parents_terminates :
    (∀ (resolve : String → Option Entity) (fuel : Nat) (e : Entity) (d : ParentDict),
        e.kind = .scenario ∨ e.kind = .cycle →
        getParentsAux resolve (fuel + 1) e d = some d)
  ∧ (∀ (resolve : String → Option Entity) (n : Nat) (e : Entity) (d : ParentDict),
        wellKeyed d →
        getParentsAux resolve (n + 3) e d = getParentsAux resolve 3 e d) := by
  constructor
  · rintro resolve fuel e d (h | h)
    · exact gpa_scenario h
    · exact gpa_cycle h
  · intro resolve n e d hWK
    cases hk : e.kind
    case job => rw [gpa_job hk, gpa_job hk]
    case cycle => rw [gpa_cycle hk, gpa_cycle hk]
    case scenario => rw [gpa_scenario hk, gpa_scenario hk]
    case sequence => rw [gpa_sequence hk, gpa_sequence hk]
    case submission => rw [gpa_submission hk, gpa_submission hk]
    case task => rw [gpa_task_eq (n + 1) hk hWK, gpa_task_eq 1 hk hWK]
    case dataNode => rw [gpa_dataNode_eq n hk hWK, gpa_dataNode_eq 0 hk hWK]

/-- Closed instance of C8: a scenario returns the dictionary unchanged,
and fuel beyond three changes nothing on a data node. -/
theorem C8_get_parents_terminates_witness :
    getParentsAux (fun _ => none) 5 ⟨"SCENARIO_s", .scenario, "v", []⟩
        ParentDict.empty = some ParentDict.empty
  ∧ getParentsAux (fun _ => none) 10 ⟨"DATANODE_d", .dataNode, "v", []⟩
        ParentDict.empty
      = getParentsAux (fun _ => none) 3 ⟨"DATANODE_d", .dataNode, "v", []⟩
        ParentDict.empty :=
  ⟨C8_get_parents_terminates.1 (fun _ => none) 4 ⟨"SCENARIO_s", .scenario, "v", []⟩
      ParentDict.empty (Or.inl rfl),
    C8_get_parents_terminates.2 (fun _ => none) 7 ⟨"DATANODE_d", .dataNode, "v", []⟩
      ParentDict.empty wellKeyed_empty⟩

/-- Claim C5: for a DataNode whose producing Task resolves from its
parent set and whose Task's parent set reaches a Scenario,
`get_parents` returns a dictionary whose task entry contains the Task
and whose scenario entry contains the Scenario — two hops up — and
every entry is duplicate-free (set semantics). -/
theorem C5_get_parents_two_hops (resolve : String → Option Entity) (dn t s : Entity)
    (hdn : dn.kind = .dataNode) (ht : t.kind = .task) (hs : s.kind = .scenario)
    (htp : t.id ∈ dn.parent_ids) (hrt : resolve t.id = some t)
    (hsp : s.id ∈ t.parent_ids) (hrs : resolve s.id = some s)
    (hres : ∀ p ∈ dn.parent_ids, ∃ pe, resolve p = some pe ∧
        ∀ q ∈ pe.parent_ids, (resolve q).isSome) :
    ∃ d, get_parents resolve dn = some d
      ∧ t ∈ d.kindList .task ∧ s ∈ d.kindList .scenario ∧ dictNodup d := by
  have hstot : ∀ p ∈ dn.parent_ids, (resolve p).isSome := by
    intro p hp
    rcases hres p hp with ⟨pe, hpe, _⟩
    rw [hpe]
    rfl
  rcases collect_total ParentDict.empty hstot with ⟨cur, hc⟩
  have hcurW : wellKeyed cur := collect_wellKeyed wellKeyed_empty hc
  have hd0N : dictNodup (ParentDict.empty.merge cur) := dictNodup_merge dictNodup_empty
  have htcur : t ∈ cur.kindList .task := by
    have := collect_mem hc htp hrt
    rwa [ht] at this
  have htd0 : t ∈ (ParentDict.empty.merge cur).kindList .task :=
    mem_merge.mpr (.inr htcur)
  have hsteps : ∀ e2 ∈ (ParentDict.empty.merge cur).kindList .task,
      ∃ cur2, collectParents resolve e2.parent_ids ParentDict.empty = some cur2 := by
    intro e2 he2
    rcases mem_merge.mp he2 with he2 | he2
    · simp [ParentDict.empty, ParentDict.kindList] at he2
    · rcases collect_source hc he2 with he | ⟨p, hp, hpr⟩
      · simp [ParentDict.empty, ParentDict.kindList] at he
      · rcases hres p hp with ⟨pe, hpe, hq⟩
        have hpeq : pe = e2 := by
          rw [hpe] at hpr
          exact Option.some.inj hpr
        subst hpeq
        exact collect_total ParentDict.empty hq
  rcases stepList_taskMerge resolve ((ParentDict.empty.merge cur).kindList .task)
      (ParentDict.empty.merge cur) hsteps with ⟨dfin, hfin, hmono, hcurm, hnd⟩
  refine ⟨dfin, ?_, ?_, ?_, hnd hd0N⟩
  · unfold get_parents
    rw [gpa_dataNode_eq 0 hdn wellKeyed_empty, hc]
    exact hfin
  · exact hmono .task t htd0
  · rcases hsteps t htd0 with ⟨curT, hcT⟩
    have hscur : s ∈ curT.kindList .scenario := by
      have := collect_mem hcT hsp hrs
      rwa [hs] at this
    exact hcurm t htd0 curT hcT .scenario s hscur

/-- Closed instance of C5: a concrete three-entity graph (a data node
produced by one task consumed into one scenario). -/
theorem C5_get_parents_two_hops_witness :
    ∃ d, get_parents c5Resolve c5DataNode = some d
      ∧ c5Task ∈ d.kindList .task ∧ c5Scenario ∈ d.kindList .scenario ∧ dictNodup d :=
  C5_get_parents_two_hops c5Resolve c5DataNode c5Task c5Scenario rfl rfl rfl
    (by decide) (by decide) (by decide) (by decide)
    (by
      intro p hp
      have hp2 : p = "TASK_t" := by simpa [c5DataNode] using hp
      subst hp2
      exact ⟨c5Task, by decide, by decide⟩)

end Taipy
